import Mathlib

/-!
Verification of the releso spline / action-space subsystem
(`releso/spline.py` together with the environment action dispatch in
`SbSOvRL/parser_environment.py`).

Python floats are modelled as rationals (`ℚ`), so every computation here is
the exact real-number counterpart of the source arithmetic.  Fallible
construction steps (pydantic field checks, validators raising
`ParserException`, the unhandled `ZeroDivisionError` in the default grid
builder) are modelled with `Except PyErr`.  The `save_location` bookkeeping
inherited from the shared base model carries no numeric content and is
omitted from the state.
-/

/-- Errors that construction of the modelled objects can surface.
`parserException cls field` models `releso.exceptions.ParserException`;
`fieldRequired` models pydantic's "field required" error for a required
field that was not supplied; `zeroDivisionError` models an unhandled Python
`ZeroDivisionError`; `validationError` models a pydantic constrained-type
failure such as `conint(ge=1)` or `confloat(ge=0, le=1)`. -/
inductive PyErr where
  | parserException (cls fieldName : String)
  | fieldRequired (fieldName : String)
  | zeroDivisionError
  | validationError (msg : String)
deriving DecidableEq, Repr

deriving instance DecidableEq for Except

/-- Model of `numpy.clip x lo hi`, which computes `min(hi, max(lo, x))`. -/
def np_clip (x lo hi : ℚ) : ℚ := min (max x lo) hi

/-- Model of `numpy.linspace a b num` over the rationals:
`num` evenly spaced samples from `a` to `b` inclusive. -/
def linspace (a b : ℚ) (num : ℕ) : List ℚ :=
  if num = 0 then []
  else if num = 1 then [a]
  else (List.range num).map (fun (i : ℕ) => a + (b - a) * (i : ℚ) / ((num : ℚ) - 1))

/-- Effectful map over a list that stops at the first error, the way a
Python `for` loop over the elements raises at the first failing element. -/
def map_except (f : α → Except ε β) : List α → Except ε (List β)
  | [] => .ok []
  | a :: l =>
    match f a with
    | .error e => .error e
    | .ok b =>
      match map_except f l with
      | .error e => .error e
      | .ok bs => .ok (b :: bs)

theorem map_except_ok_of_forall (f : α → Except ε β) (g : α → β) :
    ∀ l : List α, (∀ x ∈ l, f x = .ok (g x)) → map_except f l = .ok (l.map g) := by
  intro l
  induction l with
  | nil => intro _; rfl
  | cons a l ih =>
    intro h
    have ha := h a (List.mem_cons_self a l)
    have hl := ih (fun x hx => h x (List.mem_cons_of_mem a hx))
    simp [map_except, ha, hl]

theorem exists_input_of_map_except_ok (f : α → Except ε β) :
    ∀ (l : List α) (out : List β), map_except f l = .ok out →
      ∀ y ∈ out, ∃ x ∈ l, f x = .ok y := by
  intro l
  induction l with
  | nil =>
    intro out h y hy
    simp [map_except] at h
    subst h
    simp at hy
  | cons a l ih =>
    intro out h y hy
    unfold map_except at h
    cases hfa : f a with
    | error e => rw [hfa] at h; simp at h
    | ok b =>
      rw [hfa] at h
      cases hml : map_except f l with
      | error e => rw [hml] at h; simp at h
      | ok bs =>
        rw [hml] at h
        simp at h
        subst h
        rcases List.mem_cons.mp hy with hyb | hybs
        · exact ⟨a, List.mem_cons_self a l, hyb ▸ hfa⟩
        · obtain ⟨x, hx, hfx⟩ := ih bs hml y hybs
          exact ⟨x, List.mem_cons_of_mem a hx, hfx⟩

theorem forall_ok_of_map_except_ok (f : α → Except ε β) :
    ∀ (l : List α) (out : List β), map_except f l = .ok out →
      ∀ x ∈ l, ∃ y, f x = .ok y := by
  intro l
  induction l with
  | nil => intro out _ x hx; simp at hx
  | cons a l ih =>
    intro out h x hx
    unfold map_except at h
    cases hfa : f a with
    | error e => rw [hfa] at h; simp at h
    | ok b =>
      rw [hfa] at h
      cases hml : map_except f l with
      | error e => rw [hml] at h; simp at h
      | ok bs =>
        rcases List.mem_cons.mp hx with hxa | hxl
        · exact ⟨b, hxa ▸ hfa⟩
        · exact ih bs hml x hxl

theorem map_except_id_ok (f : α → Except ε α)
    (hid : ∀ x y, f x = .ok y → y = x) :
    ∀ (l : List α) (out : List α), map_except f l = .ok out → out = l := by
  intro l
  induction l with
  | nil => intro out h; simpa [map_except] using h.symm
  | cons a l ih =>
    intro out h
    unfold map_except at h
    cases hfa : f a with
    | error e => rw [hfa] at h; simp at h
    | ok b =>
      rw [hfa] at h
      cases hml : map_except f l with
      | error e => rw [hml] at h; simp at h
      | ok bs =>
        rw [hml] at h
        simp at h
        subst h
        rw [hid a b hfa, ih bs hml]

/-- State of `releso.spline.VariableLocation` after successful pydantic
validation: `step` is always resolved by the `define_step` root validator,
and the private attribute `_original_position` starts out unset (`none`).
The write-once `_is_action` cache is modelled by the pure predicate
`is_action` below, which equals the cached value at every use exercised in
this development (all collections of actions happen on an unmutated
location). -/
structure VariableLocation where
  current_position : ℚ
  min_value : ℚ
  max_value : ℚ
  n_steps : Option ℕ
  step : ℚ
  original_position : Option ℚ
deriving DecidableEq, Repr

instance : Inhabited VariableLocation := ⟨⟨0, 0, 0, some 10, 0, none⟩⟩

/-- Raw keyword arguments of `VariableLocation(...)`: every field except
`current_position` is optional; omitting `n_steps` is the same as its
declared default `10`, while an explicit `None` is modelled by `none`. -/
structure VariableLocationInput where
  current_position : ℚ
  min_value : Option ℚ
  max_value : Option ℚ
  n_steps : Option ℕ
  step : Option ℚ
deriving DecidableEq, Repr

/-- Construction-time validation pipeline of `VariableLocation`, in pydantic
field order: `set_variable_to_current_position_if_not_given` defaults each
missing bound to `current_position`; `max_value_is_greater_than_min_value`
raises a `ParserException` when `max_value < min_value`; the
`conint(ge=1)` constraint on `n_steps` rejects `0`; finally the
`define_step` root validator resolves `step` to
`(max_value - min_value) / n_steps` (with `n_steps` falling back to `10`
when it is `None`) whenever `step` was not supplied. -/
def mkVariableLocation (i : VariableLocationInput) : Except PyErr VariableLocation :=
  let mn := i.min_value.getD i.current_position
  let mx := i.max_value.getD i.current_position
  if mx < mn then
    .error (.parserException "VariableLocation" "max_value")
  else
    match i.n_steps with
    | some 0 => .error (.validationError "n_steps must be at least 1")
    | ns =>
      let value_range := mx - mn
      let st :=
        match i.step with
        | some s => s
        | none => value_range / ((ns.getD 10 : ℕ) : ℚ)
      .ok ⟨i.current_position, mn, mx, ns, st, none⟩

namespace VariableLocation

/-- `VariableLocation.is_action`: the location is an action iff its bounds
leave room to move.  The source computes this once and caches it in
`_is_action`; the cached value always equals this pure predicate applied to
the state at the first call. -/
def is_action (v : VariableLocation) : Bool :=
  decide (v.max_value > v.current_position) || decide (v.min_value < v.current_position)

/-- `VariableLocation.apply_discrete_action`: snapshot `_original_position`
on first mutation, then move by `±step` and clip to `[min_value, max_value]`. -/
def apply_discrete_action (v : VariableLocation) (increasing : Bool) : VariableLocation :=
  let original :=
    match v.original_position with
    | none => some v.current_position
    | some p => some p
  let s := if increasing then v.step else -v.step
  { v with
    original_position := original
    current_position := np_clip (v.current_position + s) v.min_value v.max_value }

/-- `VariableLocation.apply_continuos_action` (source spelling): snapshot
`_original_position` on first mutation, rescale the `[-1,1]` input to the
value range, shift by `min_value` and clip. -/
def apply_continuos_action (v : VariableLocation) (value : ℚ) : VariableLocation :=
  let original :=
    match v.original_position with
    | none => some v.current_position
    | some p => some p
  let delta := v.max_value - v.min_value
  let descaled_value := ((value + 1) / 2) * delta
  { v with
    original_position := original
    current_position := np_clip (descaled_value + v.min_value) v.min_value v.max_value }

/-- `VariableLocation.reset`: restore the snapshot when one exists,
otherwise do nothing. -/
def reset (v : VariableLocation) : VariableLocation :=
  match v.original_position with
  | none => v
  | some p => { v with current_position := p }

end VariableLocation

/-- One mutation of a `VariableLocation` through its public interface. -/
inductive SplineAction where
  | discrete (increasing : Bool)
  | continuos (value : ℚ)
deriving DecidableEq, Repr

def apply_spline_action (v : VariableLocation) : SplineAction → VariableLocation
  | .discrete b => v.apply_discrete_action b
  | .continuos x => v.apply_continuos_action x

/-- Apply a finite sequence of mutations in order. -/
def run_actions (v : VariableLocation) (l : List SplineAction) : VariableLocation :=
  l.foldl apply_spline_action v

/-- `VariableLocation(current_position=x)` with no further arguments:
both bounds default to `x` and `define_step` yields step `(x - x)/10 = 0`. -/
def fixed_vl (x : ℚ) : VariableLocation := ⟨x, x, x, some 10, 0, none⟩

theorem fixed_vl_spec (x : ℚ) :
    mkVariableLocation ⟨x, none, none, some 10, none⟩ = .ok (fixed_vl x) := by
  simp [mkVariableLocation, fixed_vl]

/-- Interior knots of an open uniform knot vector with `middle` interior
entries: `j+1` over `middle+1` for `j < middle`, i.e. the interior samples
of `numpy.linspace 0 1 (middle+2)`. -/
def interior_knots (middle : ℕ) : List ℚ :=
  (List.range middle).map (fun (j : ℕ) => ((j : ℚ) + 1) / ((middle : ℚ) + 1))

/-- `SplineSpaceDimension.validate_knot_vector` on the happy prerequisite
path (`number_of_points` and `degree` already validated).  A supplied list
of the expected length `n_knots = number_of_points + degree + 1` is
returned unchanged; a supplied list of any other length only triggers a
warning, after which the Python function falls off its end and therefore
returns `None`; a missing vector is synthesized in the open uniform format,
falling back to `degree+1` zeros followed by `degree+1` ones (with a
warning) when `n_knots < 2*(degree+1)`. -/
def validate_knot_vector (number_of_points degree : ℕ) (v : Option (List ℚ)) :
    Option (List ℚ) :=
  let n_knots := number_of_points + degree + 1
  match v with
  | some l => if l.length = n_knots then some l else none
  | none =>
    let starting_ending := degree + 1
    if 2 * starting_ending ≤ n_knots then
      let middle := n_knots - 2 * starting_ending
      some (List.replicate (starting_ending - 1) (0 : ℚ) ++
        linspace 0 1 (middle + 2) ++ List.replicate (starting_ending - 1) (1 : ℚ))
    else
      some (List.replicate starting_ending (0 : ℚ) ++
        List.replicate starting_ending (1 : ℚ))

/-- pydantic field check for `number_of_points: conint(ge=1)`. -/
def validate_number_of_points (p : ℕ) : Except PyErr ℕ :=
  if 1 ≤ p then .ok p else .error (.validationError "number_of_points must be at least 1")

/-- One element of a supplied `control_point_variables` inner list:
either a raw float or an already constructed `VariableLocation`. -/
inductive ControlPointEntry where
  | raw (x : ℚ)
  | varloc (v : VariableLocation)
deriving DecidableEq, Repr

/-- The `current_position` a control-point entry carries (the raw value for
floats, the stored position for `VariableLocation` values). -/
def cp_entry_position (e : ControlPointEntry) : ℚ :=
  match e with
  | .raw x => x
  | .varloc v => v.current_position

/-- pydantic field check for the element type
`Union[VariableLocation, confloat(ge=0, le=1)]`: a raw float outside
`[0,1]` is rejected at the field stage, a `VariableLocation` passes. -/
def validate_cp_entry_field (e : ControlPointEntry) : Except PyErr ControlPointEntry :=
  match e with
  | .raw x =>
    if 0 ≤ x ∧ x ≤ 1 then .ok e
    else .error (.validationError "confloat ge 0 le 1")
  | .varloc _ => .ok e

/-- Body of the loop in
`SplineDefinition.convert_all_control_point_locations_to_variable_locations`:
wrap raw floats into a fixed (zero-width) `VariableLocation`, then raise a
`ParserException` when the resulting `current_position` leaves the unit
hypercube. -/
def convert_cp_entry (e : ControlPointEntry) : Except PyErr VariableLocation :=
  let vl :=
    match e with
    | .raw x => fixed_vl x
    | .varloc v => v
  if 0 ≤ vl.current_position ∧ vl.current_position ≤ 1 then .ok vl
  else .error (.parserException "SplineDefinition" "control_point_variables")

/-- `convert_all_control_point_locations_to_variable_locations` applied to
one inner list (pydantic calls it with `each_item=True`). -/
def convert_all_control_point_locations_to_variable_locations
    (l : List ControlPointEntry) : Except PyErr (List VariableLocation) :=
  map_except convert_cp_entry l

/-- Validation of a supplied `control_point_variables` value: the field
stage checks every raw float against `confloat(ge=0, le=1)`, then the
each-item validator converts and checks every inner list. -/
def validate_control_point_variables (v : List (List ControlPointEntry)) :
    Except PyErr (List (List VariableLocation)) :=
  map_except
    (fun l =>
      match map_except validate_cp_entry_field l with
      | .error e => .error e
      | .ok l' => convert_all_control_point_locations_to_variable_locations l')
    v

/-- The half-spacing `1./((n_p-1)*2)` computed for one axis of the default
control-point grid.  For an axis with a single point the Python expression
divides by zero and the interpreter raises an unhandled
`ZeroDivisionError`. -/
def dim_spacing (n_p : ℕ) : Except PyErr ℚ :=
  if n_p = 1 then .error .zeroDivisionError
  else .ok (1 / (((n_p : ℚ) - 1) * 2))

/-- The `VariableLocation(current_position=element, min_value=…,
max_value=…)` built for one grid value in
`SplineDefinition.make_default_control_point_grid`: boundary values get
one-sided wriggle room of `dim_spacing`, interior values symmetric room;
`n_steps` keeps its default `10`, so `define_step` resolves `step` to
`(max_value - min_value) / 10`.  (For the spacings actually produced by
`dim_spacing` on a validated axis with at least two points the spacing is
positive, so the `max_value ≥ min_value` construction check always
passes.) -/
def default_vl (element dim_spacing_value : ℚ) : VariableLocation :=
  if element = 0 then
    ⟨element, element, element + dim_spacing_value, some 10,
      ((element + dim_spacing_value) - element) / 10, none⟩
  else if element = 1 then
    ⟨element, element - dim_spacing_value, element, some 10,
      (element - (element - dim_spacing_value)) / 10, none⟩
  else
    ⟨element, element - dim_spacing_value, element + dim_spacing_value, some 10,
      ((element + dim_spacing_value) - (element - dim_spacing_value)) / 10, none⟩

/-- All `VariableLocation`s of one axis of the default grid, in
`linspace 0 1 n_p` order, paired with that axis's half-spacing. -/
def axis_variable_locations (n_p : ℕ) : List VariableLocation :=
  (linspace 0 1 n_p).map (fun e => default_vl e (1 / (((n_p : ℚ) - 1) * 2)))

/-- One pass of the inner double loop of
`make_default_control_point_grid`: every existing partial tuple is combined
with every value of the new axis, the new coordinate being prepended. -/
def extend_grid (v : List (List VariableLocation)) (axis : List VariableLocation) :
    List (List VariableLocation) :=
  v.flatMap (fun current => axis.map (fun a => a :: current))

/-- `SplineDefinition.make_default_control_point_grid` on the
`control_point_variables is None` path, as a function of the declared
per-axis point counts: reverse the axis order, compute each axis's
`linspace` values and half-spacing (raising `ZeroDivisionError` on a
single-point axis), seed the grid with the first processed axis and fold
the remaining axes with `extend_grid`.  With no axes at all the Python
loop body never runs and the validator returns `None`.  `build_axis`
models one iteration of the first loop (the `linspace` values of one axis
together with its half-spacing, already mapped to `VariableLocation`s). -/
def build_axis (n_p : ℕ) : Except PyErr (List VariableLocation) :=
  match dim_spacing n_p with
  | .error e => .error e
  | .ok sp => .ok ((linspace 0 1 n_p).map (fun e => default_vl e sp))

def make_default_control_point_grid (dims : List ℕ) :
    Except PyErr (Option (List (List VariableLocation))) :=
  match map_except build_axis dims.reverse with
  | .error e => .error e
  | .ok [] => .ok none
  | .ok (a :: rest) => .ok (some (rest.foldl extend_grid (a.map (fun vl => [vl]))))

/-- Tensor-product tuples over the given declaration-order axes, flattened
so that the FIRST listed axis varies fastest (adjacent flattened entries
differ in the first coordinate). -/
def tuples_first_axis_fastest (axes : List (List VariableLocation)) :
    List (List VariableLocation) :=
  match axes with
  | [] => [[]]
  | a :: rest => (tuples_first_axis_fastest rest).flatMap (fun t => a.map (fun x => x :: t))

/-- Modelled from the spec's words for comparison with the source ordering:
tensor-product tuples flattened so that the LAST listed axis varies fastest,
the ordering the specification asserts for the default grid. -/
def tuples_last_axis_fastest (axes : List (List VariableLocation)) :
    List (List VariableLocation) :=
  match axes with
  | [] => [[]]
  | a :: rest => a.flatMap (fun x => (tuples_last_axis_fastest rest).map (fun t => x :: t))

/-- `SplineDefinition.get_number_of_points`: product of the per-axis point
counts. -/
def get_number_of_points (dims : List ℕ) : ℕ := dims.prod

/-- `SplineDefinition.get_actions`: flatten the control-point grid and keep
the locations with actual variability. -/
def spline_get_actions (cps : List (List VariableLocation)) : List VariableLocation :=
  cps.flatten.filter (fun v => v.is_action)

/-- `SplineDefinition.reset`: reset every coordinate of every control
point. -/
def spline_definition_reset (cps : List (List VariableLocation)) :
    List (List VariableLocation) :=
  cps.map (fun cp => cp.map VariableLocation.reset)

/-- One element of a supplied NURBS `weights` list. -/
inductive WeightEntry where
  | raw (x : ℚ)
  | varloc (v : VariableLocation)
deriving DecidableEq, Repr

/-- Body of `NURBSDefinition.validate_weights` (given the number of control
points already computed from `space_dimensions`): a supplied list must have
exactly one weight per control point, otherwise a `ParserException` is
raised; a `None` value would be replaced by all ones. -/
def validate_weights (n_cp : ℕ) (v : Option (List WeightEntry)) :
    Except PyErr (List WeightEntry) :=
  match v with
  | some l =>
    if l.length = n_cp then .ok l
    else .error (.parserException "SplineDefinition NURBS" "weights")
  | none => .ok (List.replicate n_cp (WeightEntry.raw 1))

/-- `NURBSDefinition.convert_weights_into_variable_location` on one
element: wrap raw floats into a fixed `VariableLocation`. -/
def convert_weights_into_variable_location (v : WeightEntry) : VariableLocation :=
  match v with
  | .raw x => fixed_vl x
  | .varloc w => w

/-- Construction pipeline of the `weights` field of `NURBSDefinition`.
The field is declared `weights: List[Union[float, VariableLocation]]` with
no default and its validator is not marked `always=True`, so pydantic
rejects a missing value with a "field required" error before
`validate_weights` ever runs; its `None` branch is unreachable.  A present
list goes through `validate_weights` and per-item conversion. -/
def nurbs_weights_pipeline (n_cp : ℕ) (w : Option (List WeightEntry)) :
    Except PyErr (List VariableLocation) :=
  match w with
  | none => .error (.fieldRequired "weights")
  | some l =>
    match validate_weights n_cp (some l) with
    | .error e => .error e
    | .ok l' => .ok (l'.map convert_weights_into_variable_location)

/-- `NURBSDefinition.get_actions`: the base grid actions followed by the
action-eligible weights. -/
def nurbs_get_actions (cps : List (List VariableLocation))
    (weights : List VariableLocation) : List VariableLocation :=
  spline_get_actions cps ++ weights.filter (fun v => v.is_action)

/-- `NURBSDefinition.reset`: the base reset followed by resetting every
weight. -/
def nurbs_definition_reset (cps : List (List VariableLocation))
    (weights : List VariableLocation) :
    List (List VariableLocation) × List VariableLocation :=
  (spline_definition_reset cps, weights.map VariableLocation.reset)

/-- Size of the discrete action space built by
`Environment._set_up_actions`: `spaces.Discrete(len(self._actions) * 2)`. -/
def set_up_actions_discrete_n (actions : List VariableLocation) : ℕ :=
  actions.length * 2

/-- Dimensionality of the continuous action space built by
`Environment._set_up_actions`: `spaces.Box(..., shape=(len(self._actions),))`. -/
def set_up_actions_continuous_dim (actions : List VariableLocation) : ℕ :=
  actions.length

/-- In-place update of the list element at index `k` (the effect of
`self._actions[k].apply_…` on the owning list); an out-of-range index,
which would raise `IndexError` in Python, is never exercised here. -/
def modify_at (l : List VariableLocation) (k : ℕ)
    (f : VariableLocation → VariableLocation) : List VariableLocation :=
  match l, k with
  | [], _ => []
  | a :: l, 0 => f a :: l
  | a :: l, k + 1 => a :: modify_at l k f

/-- Discrete branch of `Environment.apply_action`: action index `i` updates
the variable at position `i / 2`, increasing exactly when `i % 2 == 0`. -/
def env_apply_discrete (actions : List VariableLocation) (i : ℕ) :
    List VariableLocation :=
  modify_at actions (i / 2) (fun v => v.apply_discrete_action (decide (i % 2 = 0)))

/-- Continuous branch of `Environment.apply_action`:
`zip(action, self._actions)` applies the values positionally, leaving any
surplus actions untouched. -/
def env_apply_continuous : List ℚ → List VariableLocation → List VariableLocation
  | x :: xs, a :: rest => a.apply_continuos_action x :: env_apply_continuous xs rest
  | _, rest => rest

/-- The `VariableLocation` of the spec's worked discrete-step example:
`current_position=0.5, min_value=0.0, max_value=1.0, n_steps=10`, whose
derived step is `(1 - 0)/10 = 1/10`. -/
def vl_half : VariableLocation := ⟨1/2, 0, 1, some 10, 1/10, none⟩

/-- A `VariableLocation` whose `current_position` lies in `[0,1]` but whose
`max_value` does not; its derived step is `(2 - 0)/10 = 1/5`. -/
def vl_wide : VariableLocation := ⟨9/10, 0, 2, some 10, 1/5, none⟩

/-- A `VariableLocation` constructed with explicit bounds `[3/5, 4/5]` that
do not contain the current position `1/2`; its derived step is
`(4/5 - 3/5)/10 = 1/50`. -/
def vl_gap : VariableLocation := ⟨1/2, 3/5, 4/5, some 10, 1/50, none⟩

theorem vl_half_spec :
    mkVariableLocation ⟨1/2, some 0, some 1, some 10, none⟩ = .ok vl_half := by
  norm_num [mkVariableLocation, vl_half]

theorem vl_wide_spec :
    mkVariableLocation ⟨9/10, some 0, some 2, some 10, none⟩ = .ok vl_wide := by
  norm_num [mkVariableLocation, vl_wide]

theorem vl_gap_spec :
    mkVariableLocation ⟨1/2, some (3/5), some (4/5), some 10, none⟩ = .ok vl_gap := by
  norm_num [mkVariableLocation, vl_gap]

/-- C7 (counterexample): for
`VariableLocation(current_position=0.5, min_value=0.0, max_value=1.0,
n_steps=10)` the derived step is `(1-0)/10 = 0.1`, not the `0.05` the claim
states, and the first increasing discrete action yields `0.6`, not `0.55`. -/
theorem C7_counterexample :
    mkVariableLocation ⟨1/2, some 0, some 1, some 10, none⟩ = .ok vl_half
    ∧ vl_half.step ≠ 1/20
    ∧ (vl_half.apply_discrete_action true).current_position ≠ 11/20 := by
  refine ⟨vl_half_spec, ?_, ?_⟩
  · norm_num [vl_half]
  · norm_num [VariableLocation.apply_discrete_action, np_clip, vl_half]

/-- C7 (amended): for `VariableLocation(current_position=0.5, min_value=0.0,
max_value=1.0, n_steps=10)` the derived step is `0.1`;
`apply_discrete_action(True)` returns `0.6`; `apply_discrete_action(False)`
on the original state returns `0.4`; and ten consecutive increasing
discrete actions leave the position clamped at `1.0`. -/
theorem C7_discrete_step_semantics :
    mkVariableLocation ⟨1/2, some 0, some 1, some 10, none⟩ = .ok vl_half
    ∧ vl_half.step = 1/10
    ∧ (vl_half.apply_discrete_action true).current_position = 3/5
    ∧ (vl_half.apply_discrete_action false).current_position = 2/5
    ∧ (run_actions vl_half
        (List.replicate 10 (SplineAction.discrete true))).current_position = 1 := by
  have hrep : List.replicate 10 (SplineAction.discrete true) =
      [.discrete true, .discrete true, .discrete true, .discrete true, .discrete true,
       .discrete true, .discrete true, .discrete true, .discrete true, .discrete true] := rfl
  refine ⟨vl_half_spec, by norm_num [vl_half], ?_, ?_, ?_⟩
  · norm_num [VariableLocation.apply_discrete_action, np_clip, vl_half]
  · norm_num [VariableLocation.apply_discrete_action, np_clip, vl_half]
  · rw [hrep]
    norm_num [run_actions, apply_spline_action, VariableLocation.apply_discrete_action,
      np_clip, vl_half]

/-- C5: a supplied knot vector of the wrong length (here length 6 where
`number_of_points + degree + 1 = 8`) is NOT kept: after emitting its
warning the validator falls off the end of the function and the stored
`knot_vector` becomes `None`, discarding the user-supplied data. -/
theorem C5_wrong_length_vector_discarded :
    validate_knot_vector 5 2 (some [0, 0, 0, 1, 1, 1]) = none
    ∧ (none : Option (List ℚ)) ≠ some [0, 0, 0, 1, 1, 1] := by
  exact ⟨by simp [validate_knot_vector], by simp⟩

/-- C6: constructing a `NURBSDefinition` without supplying `weights` is a
hard pydantic failure ("field required"), because the field is declared
without a default and its validator is not `always=True`; the all-ones
default in `validate_weights`' `None` branch is unreachable dead code
(second conjunct shows what it would have produced); a supplied list whose
length differs from the control-point count is a hard `ParserException`. -/
theorem C6_weights_construction :
    nurbs_weights_pipeline 6 none = .error (.fieldRequired "weights")
    ∧ validate_weights 6 none = .ok (List.replicate 6 (WeightEntry.raw 1))
    ∧ nurbs_weights_pipeline 6 (some (List.replicate 5 (WeightEntry.raw 1)))
        = .error (.parserException "SplineDefinition NURBS" "weights") := by
  exact ⟨rfl, rfl, rfl⟩

theorem mk_ok_inv (i : VariableLocationInput) (v : VariableLocation)
    (h : mkVariableLocation i = .ok v) :
    v.min_value ≤ v.max_value ∧ v.original_position = none ∧
    v.current_position = i.current_position := by
  simp only [mkVariableLocation] at h
  split at h
  · simp at h
  · rename_i hlt
    split at h
    · simp at h
    · rw [Except.ok.injEq] at h
      subst h
      exact ⟨le_of_not_lt hlt, rfl, rfl⟩

theorem np_clip_mem (x lo hi : ℚ) (h : lo ≤ hi) :
    lo ≤ np_clip x lo hi ∧ np_clip x lo hi ≤ hi :=
  ⟨le_min (le_max_right x lo) h, min_le_right _ _⟩

theorem apply_spline_action_min_value (v : VariableLocation) (a : SplineAction) :
    (apply_spline_action v a).min_value = v.min_value := by
  cases a <;> rfl

theorem apply_spline_action_max_value (v : VariableLocation) (a : SplineAction) :
    (apply_spline_action v a).max_value = v.max_value := by
  cases a <;> rfl

theorem apply_spline_action_bounds (v : VariableLocation) (a : SplineAction)
    (h : v.min_value ≤ v.max_value) :
    v.min_value ≤ (apply_spline_action v a).current_position ∧
    (apply_spline_action v a).current_position ≤ v.max_value := by
  cases a with
  | discrete b =>
    show v.min_value ≤ np_clip _ v.min_value v.max_value ∧
      np_clip _ v.min_value v.max_value ≤ v.max_value
    exact np_clip_mem _ _ _ h
  | continuos x =>
    show v.min_value ≤ np_clip _ v.min_value v.max_value ∧
      np_clip _ v.min_value v.max_value ≤ v.max_value
    exact np_clip_mem _ _ _ h

theorem run_actions_min_value : ∀ (l : List SplineAction) (v : VariableLocation),
    (run_actions v l).min_value = v.min_value := by
  intro l
  induction l with
  | nil => intro v; rfl
  | cons a l ih =>
    intro v
    show (run_actions (apply_spline_action v a) l).min_value = v.min_value
    rw [ih, apply_spline_action_min_value]

theorem run_actions_max_value : ∀ (l : List SplineAction) (v : VariableLocation),
    (run_actions v l).max_value = v.max_value := by
  intro l
  induction l with
  | nil => intro v; rfl
  | cons a l ih =>
    intro v
    show (run_actions (apply_spline_action v a) l).max_value = v.max_value
    rw [ih, apply_spline_action_max_value]

theorem run_actions_good : ∀ (l : List SplineAction) (v : VariableLocation),
    v.min_value ≤ v.max_value → v.min_value ≤ v.current_position →
    v.current_position ≤ v.max_value →
    v.min_value ≤ (run_actions v l).current_position ∧
    (run_actions v l).current_position ≤ v.max_value := by
  intro l
  induction l with
  | nil => intro v _ h1 h2; exact ⟨h1, h2⟩
  | cons a l ih =>
    intro v h h1 h2
    have hb := apply_spline_action_bounds v a h
    have hrec := ih (apply_spline_action v a)
      (by rw [apply_spline_action_min_value, apply_spline_action_max_value]; exact h)
      (by rw [apply_spline_action_min_value]; exact hb.1)
      (by rw [apply_spline_action_max_value]; exact hb.2)
    rw [apply_spline_action_min_value, apply_spline_action_max_value] at hrec
    exact hrec

/-- C3 (counterexample): a `VariableLocation` whose explicit bounds
`[0.6, 0.8]` exclude the current position `0.5` is accepted by
construction-time validation, so `min_value ≤ current_position` does NOT
hold at construction time. -/
theorem C3_counterexample :
    mkVariableLocation ⟨1/2, some (3/5), some (4/5), some 10, none⟩ = .ok vl_gap
    ∧ ¬(vl_gap.min_value ≤ vl_gap.current_position) := by
  exact ⟨vl_gap_spec, by norm_num [vl_gap]⟩

/-- C3 (amended): construction only enforces `min_value ≤ max_value`;
`min_value ≤ current_position ≤ max_value` need not hold at construction
time, but it holds after every non-empty finite sequence of
`apply_discrete_action` / `apply_continuos_action` calls (the first call
clips the position into the bounds and every later call keeps it there),
and `min_value ≤ max_value` is preserved throughout. -/
theorem C3_bounds_after_actions (i : VariableLocationInput) (v : VariableLocation)
    (a : SplineAction) (l : List SplineAction)
    (hv : mkVariableLocation i = .ok v) :
    v.min_value ≤ v.max_value
    ∧ (run_actions v (a :: l)).min_value ≤ (run_actions v (a :: l)).current_position
    ∧ (run_actions v (a :: l)).current_position ≤ (run_actions v (a :: l)).max_value
    ∧ (run_actions v (a :: l)).min_value ≤ (run_actions v (a :: l)).max_value := by
  obtain ⟨hmm, -, -⟩ := mk_ok_inv i v hv
  have hb := apply_spline_action_bounds v a hmm
  have hgood := run_actions_good l (apply_spline_action v a)
    (by rw [apply_spline_action_min_value, apply_spline_action_max_value]; exact hmm)
    (by rw [apply_spline_action_min_value]; exact hb.1)
    (by rw [apply_spline_action_max_value]; exact hb.2)
  have hshow : run_actions v (a :: l) = run_actions (apply_spline_action v a) l := rfl
  rw [hshow, run_actions_min_value, run_actions_max_value,
    apply_spline_action_min_value, apply_spline_action_max_value] at *
  exact ⟨hmm, hgood.1, hgood.2, hmm⟩

/-- Witness for C3 at the concrete example location. -/
theorem C3_bounds_after_actions_witness :
    vl_half.min_value ≤ vl_half.max_value
    ∧ (run_actions vl_half [SplineAction.discrete true]).min_value ≤
        (run_actions vl_half [SplineAction.discrete true]).current_position
    ∧ (run_actions vl_half [SplineAction.discrete true]).current_position ≤
        (run_actions vl_half [SplineAction.discrete true]).max_value
    ∧ (run_actions vl_half [SplineAction.discrete true]).min_value ≤
        (run_actions vl_half [SplineAction.discrete true]).max_value :=
  C3_bounds_after_actions ⟨1/2, some 0, some 1, some 10, none⟩ vl_half
    (.discrete true) [] vl_half_spec

theorem reset_of_none (v : VariableLocation) (h : v.original_position = none) :
    v.reset = v := by
  simp [VariableLocation.reset, h]

theorem reset_reset (v : VariableLocation) : v.reset.reset = v.reset := by
  cases hv : v.original_position with
  | none => rw [reset_of_none v hv, reset_of_none v hv]
  | some p => simp [VariableLocation.reset, hv]

theorem reset_current_of_some (v : VariableLocation) (p : ℚ)
    (h : v.original_position = some p) : v.reset.current_position = p := by
  simp [VariableLocation.reset, h]

theorem apply_spline_action_original (v : VariableLocation) (a : SplineAction) :
    (apply_spline_action v a).original_position =
      some (v.original_position.getD v.current_position) := by
  cases a <;> cases hv : v.original_position <;>
    simp [apply_spline_action, VariableLocation.apply_discrete_action,
      VariableLocation.apply_continuos_action, hv]

theorem run_actions_original_some : ∀ (l : List SplineAction)
    (v : VariableLocation) (p : ℚ), v.original_position = some p →
    (run_actions v l).original_position = some p := by
  intro l
  induction l with
  | nil => intro v p h; exact h
  | cons a l ih =>
    intro v p h
    have h1 : (apply_spline_action v a).original_position = some p := by
      rw [apply_spline_action_original, h]
      rfl
    exact ih _ p h1

theorem run_actions_original_of_none (a : SplineAction) (l : List SplineAction)
    (v : VariableLocation) (h : v.original_position = none) :
    (run_actions v (a :: l)).original_position = some v.current_position := by
  have h1 : (apply_spline_action v a).original_position = some v.current_position := by
    rw [apply_spline_action_original, h]
    rfl
  exact run_actions_original_some l _ _ h1

theorem reset_map_id (l : List VariableLocation)
    (h : ∀ w ∈ l, w.original_position = none) :
    l.map VariableLocation.reset = l := by
  have : ∀ w ∈ l, VariableLocation.reset w = id w :=
    fun w hw => reset_of_none w (h w hw)
  rw [List.map_congr_left this, List.map_id]

/-- C9: `reset` before any mutation is a no-op (construction leaves the
snapshot unset); `reset` is idempotent; after any non-empty sequence of
mutations `reset` restores `current_position` to the snapshot taken at the
first mutation, which is the construction-time value; and the grid-level
`SplineDefinition.reset` and weight-level `NURBSDefinition.reset` inherit
idempotence and the unmutated no-op pointwise. -/
theorem C9_reset_semantics (i : VariableLocationInput) (v : VariableLocation)
    (l : List SplineAction) (hv : mkVariableLocation i = .ok v) :
    v.reset = v
    ∧ (∀ w : VariableLocation, w.reset.reset = w.reset)
    ∧ (l ≠ [] → (run_actions v l).reset.current_position = v.current_position)
    ∧ (∀ cps : List (List VariableLocation),
        spline_definition_reset (spline_definition_reset cps) =
          spline_definition_reset cps)
    ∧ (∀ cps : List (List VariableLocation),
        (∀ cp ∈ cps, ∀ w ∈ cp, w.original_position = none) →
        spline_definition_reset cps = cps)
    ∧ (∀ (cps : List (List VariableLocation)) (weights : List VariableLocation),
        nurbs_definition_reset (nurbs_definition_reset cps weights).1
          (nurbs_definition_reset cps weights).2 = nurbs_definition_reset cps weights)
    ∧ (∀ (cps : List (List VariableLocation)) (weights : List VariableLocation),
        (∀ cp ∈ cps, ∀ w ∈ cp, w.original_position = none) →
        (∀ w ∈ weights, w.original_position = none) →
        nurbs_definition_reset cps weights = (cps, weights)) := by
  obtain ⟨-, horig, -⟩ := mk_ok_inv i v hv
  have hgrid_idem : ∀ cps : List (List VariableLocation),
      spline_definition_reset (spline_definition_reset cps) =
        spline_definition_reset cps := by
    intro cps
    simp only [spline_definition_reset, List.map_map]
    refine List.map_congr_left fun cp _ => ?_
    simp only [Function.comp_def, List.map_map]
    exact List.map_congr_left fun w _ => reset_reset w
  have hgrid_noop : ∀ cps : List (List VariableLocation),
      (∀ cp ∈ cps, ∀ w ∈ cp, w.original_position = none) →
      spline_definition_reset cps = cps := by
    intro cps h
    unfold spline_definition_reset
    have : ∀ cp ∈ cps, cp.map VariableLocation.reset = id cp :=
      fun cp hcp => reset_map_id cp (h cp hcp)
    rw [List.map_congr_left this, List.map_id]
  refine ⟨reset_of_none v horig, reset_reset, ?_, hgrid_idem, hgrid_noop, ?_, ?_⟩
  · intro hl
    match l with
    | [] => exact absurd rfl hl
    | a :: l' =>
      exact reset_current_of_some _ _ (run_actions_original_of_none a l' v horig)
  · intro cps weights
    unfold nurbs_definition_reset
    refine Prod.ext ?_ ?_
    · exact hgrid_idem cps
    · simp only
      rw [List.map_map]
      exact List.map_congr_left fun w _ => reset_reset w
  · intro cps weights hcps hw
    unfold nurbs_definition_reset
    rw [hgrid_noop cps hcps, reset_map_id weights hw]

/-- Witness for C9 at the concrete example location. -/
theorem C9_reset_semantics_witness :
    vl_half.reset = vl_half
    ∧ (∀ w : VariableLocation, w.reset.reset = w.reset)
    ∧ ([SplineAction.discrete true] ≠ [] →
        (run_actions vl_half [SplineAction.discrete true]).reset.current_position =
          vl_half.current_position)
    ∧ (∀ cps : List (List VariableLocation),
        spline_definition_reset (spline_definition_reset cps) =
          spline_definition_reset cps)
    ∧ (∀ cps : List (List VariableLocation),
        (∀ cp ∈ cps, ∀ w ∈ cp, w.original_position = none) →
        spline_definition_reset cps = cps)
    ∧ (∀ (cps : List (List VariableLocation)) (weights : List VariableLocation),
        nurbs_definition_reset (nurbs_definition_reset cps weights).1
          (nurbs_definition_reset cps weights).2 = nurbs_definition_reset cps weights)
    ∧ (∀ (cps : List (List VariableLocation)) (weights : List VariableLocation),
        (∀ cp ∈ cps, ∀ w ∈ cp, w.original_position = none) →
        (∀ w ∈ weights, w.original_position = none) →
        nurbs_definition_reset cps weights = (cps, weights)) :=
  C9_reset_semantics ⟨1/2, some 0, some 1, some 10, none⟩ vl_half
    [SplineAction.discrete true] vl_half_spec

theorem validate_cp_entry_field_id (e e' : ControlPointEntry)
    (h : validate_cp_entry_field e = .ok e') : e' = e := by
  cases e with
  | raw x =>
    by_cases hc : 0 ≤ x ∧ x ≤ 1
    · simp [validate_cp_entry_field, hc] at h
      exact h.symm
    · simp [validate_cp_entry_field, hc] at h
  | varloc w =>
    simp [validate_cp_entry_field] at h
    exact h.symm

theorem convert_cp_entry_ok (e : ControlPointEntry) (w : VariableLocation)
    (h : convert_cp_entry e = .ok w) :
    (0 ≤ w.current_position ∧ w.current_position ≤ 1) ∧
    cp_entry_position e = w.current_position := by
  cases e with
  | raw x =>
    by_cases hc : 0 ≤ (fixed_vl x).current_position ∧ (fixed_vl x).current_position ≤ 1
    · simp [convert_cp_entry, hc] at h
      subst h
      exact ⟨hc, rfl⟩
    · simp [convert_cp_entry, hc] at h
  | varloc u =>
    by_cases hc : 0 ≤ u.current_position ∧ u.current_position ≤ 1
    · simp [convert_cp_entry, hc] at h
      subst h
      exact ⟨hc, rfl⟩
    · simp [convert_cp_entry, hc] at h

/-- C2 (amended): at construction time every raw float control-point value
and every stored `current_position` lies in `[0,1]` — an input outside that
range is a hard construction failure.  (Only `current_position` is checked:
the counterexample shows a stored `max_value` outside `[0,1]` and a
post-action position above `1`.) -/
theorem C2_construction_bounds (v : List (List ControlPointEntry))
    (out : List (List VariableLocation))
    (h : validate_control_point_variables v = .ok out) :
    (∀ l ∈ out, ∀ w ∈ l, 0 ≤ w.current_position ∧ w.current_position ≤ 1)
    ∧ (∀ l ∈ v, ∀ e ∈ l, 0 ≤ cp_entry_position e ∧ cp_entry_position e ≤ 1) := by
  unfold validate_control_point_variables at h
  constructor
  · intro l hl w hw
    obtain ⟨l₀, -, hinner⟩ := exists_input_of_map_except_ok _ _ _ h l hl
    cases hf : map_except validate_cp_entry_field l₀ with
    | error e => rw [hf] at hinner; simp at hinner
    | ok l' =>
      rw [hf] at hinner
      obtain ⟨e, -, hconv⟩ := exists_input_of_map_except_ok _ _ _ hinner w hw
      exact (convert_cp_entry_ok e w hconv).1
  · intro l hl e he
    obtain ⟨y, hinner⟩ := forall_ok_of_map_except_ok _ _ _ h l hl
    cases hf : map_except validate_cp_entry_field l with
    | error e' => rw [hf] at hinner; simp at hinner
    | ok l' =>
      rw [hf] at hinner
      have hl' : l' = l := map_except_id_ok _ validate_cp_entry_field_id l l' hf
      subst hl'
      obtain ⟨w, hconv⟩ := forall_ok_of_map_except_ok _ _ _ hinner e he
      obtain ⟨hw, hpos⟩ := convert_cp_entry_ok e w hconv
      rw [hpos]
      exact hw

/-- Witness for C2 on a grid with one raw control-point value `0.5`. -/
theorem C2_construction_bounds_witness :
    (∀ l ∈ [[fixed_vl (1/2)]], ∀ w ∈ l,
      0 ≤ w.current_position ∧ w.current_position ≤ 1)
    ∧ (∀ l ∈ [[ControlPointEntry.raw (1/2)]], ∀ e ∈ l,
      0 ≤ cp_entry_position e ∧ cp_entry_position e ≤ 1) :=
  C2_construction_bounds [[ControlPointEntry.raw (1/2)]] [[fixed_vl (1/2)]]
    (by norm_num [validate_control_point_variables, map_except,
      validate_cp_entry_field, convert_all_control_point_locations_to_variable_locations,
      convert_cp_entry, fixed_vl])

/-- C2 (counterexample): a supplied `VariableLocation` whose
`current_position` `0.9` lies in `[0,1]` but whose `max_value` is `2`
passes construction-time validation, so a scalar outside `[0,1]` is stored
in `control_point_variables`; one discrete action then moves the position
to `1.1 > 1` with no rejection and no clamp into the unit interval. -/
theorem C2_counterexample :
    mkVariableLocation ⟨9/10, some 0, some 2, some 10, none⟩ = .ok vl_wide
    ∧ validate_control_point_variables [[ControlPointEntry.varloc vl_wide]] =
        .ok [[vl_wide]]
    ∧ vl_wide.max_value = 2 ∧ ¬((2:ℚ) ≤ 1)
    ∧ (vl_wide.apply_discrete_action true).current_position = 11/10
    ∧ ¬((11:ℚ)/10 ≤ 1) := by
  refine ⟨vl_wide_spec, ?_, rfl, by norm_num, ?_, by norm_num⟩
  · norm_num [validate_control_point_variables, map_except,
      validate_cp_entry_field, convert_all_control_point_locations_to_variable_locations,
      convert_cp_entry, vl_wide]
  · norm_num [VariableLocation.apply_discrete_action, np_clip, vl_wide]

theorem modify_at_eq_set : ∀ (l : List VariableLocation) (k : ℕ)
    (f : VariableLocation → VariableLocation), k < l.length →
    modify_at l k f = l.set k (f (l.getD k default)) := by
  intro l
  induction l with
  | nil => intro k f h; simp at h
  | cons a l ih =>
    intro k f h
    cases k with
    | zero => simp [modify_at, List.getD]
    | succ k =>
      simp only [modify_at, List.set, List.getD_cons_succ, List.cons.injEq, true_and]
      exact ih k f (by simpa using h)

theorem env_apply_continuous_zipWith : ∀ (xs : List ℚ)
    (acts : List VariableLocation), xs.length = acts.length →
    env_apply_continuous xs acts =
      List.zipWith (fun x w => w.apply_continuos_action x) xs acts := by
  intro xs
  induction xs with
  | nil =>
    intro acts h
    cases acts with
    | nil => rfl
    | cons a rest => simp at h
  | cons x xs ih =>
    intro acts h
    cases acts with
    | nil => simp at h
    | cons a rest =>
      simp only [env_apply_continuous, List.zipWith, List.cons.injEq, true_and]
      exact ih rest (by simpa using h)

/-- C8: with the action list collected by `get_actions`, the discrete
action space has exactly `2k` values; discrete action index `i < 2k`
updates the variable at position `i / 2`, increasing exactly when
`i % 2 == 0`; a continuous input vector of length `k` is applied
positionally by `apply_continuos_action`; and `get_actions` returns only
action-eligible locations. -/
theorem C8_action_dispatch (cps : List (List VariableLocation)) (i : ℕ)
    (values : List ℚ)
    (hi : i < set_up_actions_discrete_n (spline_get_actions cps))
    (hlen : values.length = (spline_get_actions cps).length) :
    set_up_actions_discrete_n (spline_get_actions cps) =
      2 * (spline_get_actions cps).length
    ∧ set_up_actions_continuous_dim (spline_get_actions cps) =
      (spline_get_actions cps).length
    ∧ i / 2 < (spline_get_actions cps).length
    ∧ env_apply_discrete (spline_get_actions cps) i =
        (spline_get_actions cps).set (i / 2)
          (((spline_get_actions cps).getD (i / 2) default).apply_discrete_action
            (decide (i % 2 = 0)))
    ∧ env_apply_continuous values (spline_get_actions cps) =
        List.zipWith (fun x w => w.apply_continuos_action x) values
          (spline_get_actions cps)
    ∧ (∀ w ∈ spline_get_actions cps, w.is_action = true) := by
  have hk : i / 2 < (spline_get_actions cps).length := by
    unfold set_up_actions_discrete_n at hi
    omega
  refine ⟨Nat.mul_comm _ _, rfl, hk, ?_, env_apply_continuous_zipWith _ _ hlen, ?_⟩
  · exact modify_at_eq_set _ _ _ hk
  · intro w hw
    exact (List.mem_filter.mp hw).2

/-- Witness for C8 on a one-action grid with discrete action index 1. -/
theorem C8_action_dispatch_witness :
    set_up_actions_discrete_n (spline_get_actions [[fixed_vl 0, vl_wide]]) =
      2 * (spline_get_actions [[fixed_vl 0, vl_wide]]).length
    ∧ set_up_actions_continuous_dim (spline_get_actions [[fixed_vl 0, vl_wide]]) =
      (spline_get_actions [[fixed_vl 0, vl_wide]]).length
    ∧ 1 / 2 < (spline_get_actions [[fixed_vl 0, vl_wide]]).length
    ∧ env_apply_discrete (spline_get_actions [[fixed_vl 0, vl_wide]]) 1 =
        (spline_get_actions [[fixed_vl 0, vl_wide]]).set (1 / 2)
          (((spline_get_actions [[fixed_vl 0, vl_wide]]).getD (1 / 2)
            default).apply_discrete_action (decide (1 % 2 = 0)))
    ∧ env_apply_continuous [0] (spline_get_actions [[fixed_vl 0, vl_wide]]) =
        List.zipWith (fun x w => w.apply_continuos_action x) [0]
          (spline_get_actions [[fixed_vl 0, vl_wide]])
    ∧ (∀ w ∈ spline_get_actions [[fixed_vl 0, vl_wide]], w.is_action = true) :=
  C8_action_dispatch [[fixed_vl 0, vl_wide]] 1 [0]
    (by norm_num [set_up_actions_discrete_n, spline_get_actions,
      VariableLocation.is_action, fixed_vl, vl_wide, List.filter])
    (by norm_num [spline_get_actions, VariableLocation.is_action, fixed_vl,
      vl_wide, List.filter])

theorem linspace_zero_one (m : ℕ) :
    linspace 0 1 (m + 2) = 0 :: (interior_knots m ++ [1]) := by
  have hm2 : (m + 2 : ℕ) ≠ 0 := by omega
  have hm1 : (m + 2 : ℕ) ≠ 1 := by omega
  have hden : ((m : ℚ) + 1) ≠ 0 := by positivity
  have hcast : (((m + 2 : ℕ) : ℚ) - 1) = (m : ℚ) + 1 := by push_cast; ring
  unfold linspace
  rw [if_neg hm2, if_neg hm1, List.range_succ, List.map_append,
    List.range_succ_eq_map, List.map_cons, List.map_map, List.cons_append]
  congr 1
  · simp
  · congr 1
    · unfold interior_knots
      refine List.map_congr_left fun j hj => ?_
      simp only [Function.comp_apply, hcast]
      push_cast
      ring
    · simp only [List.map_cons, List.map_nil, hcast]
      congr 1
      push_cast
      field_simp

theorem validate_knot_vector_synthesized (p d : ℕ) (h2 : 2 * (d + 1) ≤ p + d + 1) :
    validate_knot_vector p d none =
      some (List.replicate (d + 1) (0:ℚ) ++ interior_knots (p + d + 1 - 2 * (d + 1)) ++
        List.replicate (d + 1) (1:ℚ)) := by
  simp only [validate_knot_vector]
  rw [if_pos h2]
  rw [Nat.add_sub_cancel, linspace_zero_one]
  rw [List.replicate_succ' d (0:ℚ), List.replicate_succ (1:ℚ) d]
  simp [List.append_assoc]

/-- C4: with no supplied knot vector and `n = number_of_points + degree + 1`:
when `n ≥ 2(degree+1)` the synthesized open uniform knot vector has length
exactly `n`, starts with `degree+1` zeros, ends with `degree+1` ones, and
its `n - 2(degree+1)` interior knots are linearly spaced strictly between
`0` and `1`; when `n < 2(degree+1)` the result is `degree+1` zeros followed
by `degree+1` ones (a warning, not a hard failure); for
`number_of_points=5, degree=2` the result is `[0,0,0,1/3,2/3,1,1,1]`. -/
theorem C4_knot_vector_synthesis (p d : ℕ) (_hp : 1 ≤ p) (_hd : 1 ≤ d) :
    (2 * (d + 1) ≤ p + d + 1 →
      validate_knot_vector p d none =
        some (List.replicate (d + 1) (0:ℚ) ++
          interior_knots (p + d + 1 - 2 * (d + 1)) ++ List.replicate (d + 1) (1:ℚ))
      ∧ (List.replicate (d + 1) (0:ℚ) ++
          interior_knots (p + d + 1 - 2 * (d + 1)) ++
          List.replicate (d + 1) (1:ℚ)).length = p + d + 1
      ∧ (∀ q ∈ interior_knots (p + d + 1 - 2 * (d + 1)), 0 < q ∧ q < 1))
    ∧ (p + d + 1 < 2 * (d + 1) →
      validate_knot_vector p d none =
        some (List.replicate (d + 1) (0:ℚ) ++ List.replicate (d + 1) (1:ℚ)))
    ∧ validate_knot_vector 5 2 none = some [0, 0, 0, 1/3, 2/3, 1, 1, 1] := by
  refine ⟨?_, ?_, ?_⟩
  · intro h2
    refine ⟨validate_knot_vector_synthesized p d h2, ?_, ?_⟩
    · simp only [List.length_append, List.length_replicate, interior_knots,
        List.length_map, List.length_range]
      omega
    · intro q hq
      simp only [interior_knots, List.mem_map, List.mem_range] at hq
      obtain ⟨j, hj, rfl⟩ := hq
      constructor
      · positivity
      · rw [div_lt_one (by positivity)]
        have hcast : (j : ℚ) < (p + d + 1 - 2 * (d + 1) : ℕ) := by exact_mod_cast hj
        linarith
  · intro hlt
    simp only [validate_knot_vector]
    rw [if_neg (by omega)]
  · rw [validate_knot_vector_synthesized 5 2 (by norm_num)]
    norm_num [interior_knots, List.range_succ, List.replicate_succ]

/-- Witness for C4 at `number_of_points=5, degree=2`. -/
theorem C4_knot_vector_synthesis_witness :
    (2 * (2 + 1) ≤ 5 + 2 + 1 →
      validate_knot_vector 5 2 none =
        some (List.replicate (2 + 1) (0:ℚ) ++
          interior_knots (5 + 2 + 1 - 2 * (2 + 1)) ++ List.replicate (2 + 1) (1:ℚ))
      ∧ (List.replicate (2 + 1) (0:ℚ) ++
          interior_knots (5 + 2 + 1 - 2 * (2 + 1)) ++
          List.replicate (2 + 1) (1:ℚ)).length = 5 + 2 + 1
      ∧ (∀ q ∈ interior_knots (5 + 2 + 1 - 2 * (2 + 1)), 0 < q ∧ q < 1))
    ∧ (5 + 2 + 1 < 2 * (2 + 1) →
      validate_knot_vector 5 2 none =
        some (List.replicate (2 + 1) (0:ℚ) ++ List.replicate (2 + 1) (1:ℚ)))
    ∧ validate_knot_vector 5 2 none = some [0, 0, 0, 1/3, 2/3, 1, 1, 1] :=
  C4_knot_vector_synthesis 5 2 (by norm_num) (by norm_num)

theorem dim_spacing_ok (n : ℕ) (h : n ≠ 1) :
    dim_spacing n = .ok (1 / (((n : ℚ) - 1) * 2)) := by
  simp [dim_spacing, h]

theorem build_axis_ok (n : ℕ) (h : n ≠ 1) :
    build_axis n = .ok (axis_variable_locations n) := by
  unfold build_axis
  rw [dim_spacing_ok n h]
  rfl

theorem tuples_singleton (l : List VariableLocation) :
    l.map (fun x => [x]) = tuples_first_axis_fastest [l] := by
  simp [tuples_first_axis_fastest]

theorem foldl_extend_grid : ∀ (xs rest : List (List VariableLocation)),
    xs.foldl extend_grid (tuples_first_axis_fastest rest) =
      tuples_first_axis_fastest (xs.reverse ++ rest) := by
  intro xs
  induction xs with
  | nil => intro rest; simp
  | cons x xs ih =>
    intro rest
    have h1 : extend_grid (tuples_first_axis_fastest rest) x =
        tuples_first_axis_fastest (x :: rest) := rfl
    calc (x :: xs).foldl extend_grid (tuples_first_axis_fastest rest)
        = xs.foldl extend_grid (tuples_first_axis_fastest (x :: rest)) := by
          rw [List.foldl_cons, h1]
      _ = tuples_first_axis_fastest (xs.reverse ++ (x :: rest)) := ih (x :: rest)
      _ = tuples_first_axis_fastest ((x :: xs).reverse ++ rest) := by
          rw [List.reverse_cons, List.append_assoc, List.singleton_append]

theorem tuples_length (axes : List (List VariableLocation)) :
    (tuples_first_axis_fastest axes).length = (axes.map List.length).prod := by
  induction axes with
  | nil => simp [tuples_first_axis_fastest]
  | cons a rest ih =>
    simp only [tuples_first_axis_fastest, List.length_flatMap, List.map_cons,
      List.prod_cons]
    have hconst : List.map (List.length ∘ fun t => List.map (fun x => x :: t) a)
        (tuples_first_axis_fastest rest) =
        List.map (fun _ => a.length) (tuples_first_axis_fastest rest) :=
      List.map_congr_left (fun t _ => by simp [Function.comp])
    rw [hconst, List.map_const', List.sum_replicate, smul_eq_mul, ih]
    ring

theorem tuples_mem_length (axes : List (List VariableLocation)) :
    ∀ t ∈ tuples_first_axis_fastest axes, t.length = axes.length := by
  induction axes with
  | nil =>
    intro t ht
    simp only [tuples_first_axis_fastest, List.mem_singleton] at ht
    subst ht
    rfl
  | cons a rest ih =>
    intro t ht
    simp only [tuples_first_axis_fastest, List.mem_flatMap, List.mem_map] at ht
    obtain ⟨t', ht', x, -, rfl⟩ := ht
    simp [ih t' ht']

theorem axis_variable_locations_length (n : ℕ) :
    (axis_variable_locations n).length = n := by
  simp only [axis_variable_locations, List.length_map]
  unfold linspace
  split_ifs with h0 h1
  · simp [h0]
  · simp [h1]
  · simp

/-- C1 (amended): with no explicit control points, the default grid holds
one tuple of `VariableLocation` per control point (the product of the
per-axis point counts), each tuple listing one coordinate per declared
axis in declaration order (axes are processed in reverse declaration order
and each new coordinate is prepended), and the flattened list is ordered so
that the FIRST declared axis varies fastest (the last declared axis varies
slowest). -/
theorem C1_default_grid_order (dims : List ℕ) (hne : dims ≠ [])
    (h2 : ∀ x ∈ dims, 2 ≤ x) :
    make_default_control_point_grid dims =
      .ok (some (tuples_first_axis_fastest (dims.map axis_variable_locations)))
    ∧ (tuples_first_axis_fastest (dims.map axis_variable_locations)).length =
        get_number_of_points dims
    ∧ (∀ t ∈ tuples_first_axis_fastest (dims.map axis_variable_locations),
        t.length = dims.length) := by
  refine ⟨?_, ?_, ?_⟩
  · have hmap : map_except build_axis dims.reverse =
        .ok (dims.reverse.map axis_variable_locations) :=
      map_except_ok_of_forall build_axis axis_variable_locations dims.reverse
        (fun x hx => build_axis_ok x
          (by have := h2 x (List.mem_reverse.mp hx); omega))
    unfold make_default_control_point_grid
    rw [hmap]
    cases hrev : dims.reverse with
    | nil => exact absurd (by simpa using congrArg List.reverse hrev) hne
    | cons r rs =>
      simp only [List.map_cons]
      show Except.ok (some (List.foldl extend_grid
          (List.map (fun vl => [vl]) (axis_variable_locations r))
          (List.map axis_variable_locations rs))) = _
      rw [tuples_singleton, foldl_extend_grid]
      have hlist : (rs.map axis_variable_locations).reverse ++
          [axis_variable_locations r] = dims.map axis_variable_locations := by
        rw [← List.reverse_cons, ← List.map_cons, ← hrev, ← List.map_reverse,
          List.reverse_reverse]
      rw [hlist]
  · rw [tuples_length, List.map_map]
    have : (List.length ∘ axis_variable_locations) = id := by
      funext n
      exact axis_variable_locations_length n
    rw [this, List.map_id]
    rfl
  · intro t ht
    have := tuples_mem_length (dims.map axis_variable_locations) t ht
    simpa using this

/-- Witness for C1 on a two-axis grid (2 points by 3 points). -/
theorem C1_default_grid_order_witness :
    make_default_control_point_grid [2, 3] =
      .ok (some (tuples_first_axis_fastest ([2, 3].map axis_variable_locations)))
    ∧ (tuples_first_axis_fastest ([2, 3].map axis_variable_locations)).length =
        get_number_of_points [2, 3]
    ∧ (∀ t ∈ tuples_first_axis_fastest ([2, 3].map axis_variable_locations),
        t.length = ([2, 3] : List ℕ).length) :=
  C1_default_grid_order [2, 3] (by simp) (by decide)

theorem map_except_build_axis_error : ∀ (l : List ℕ), 1 ∈ l →
    map_except build_axis l = .error .zeroDivisionError := by
  intro l
  induction l with
  | nil => intro h; simp at h
  | cons a l ih =>
    intro h
    by_cases ha : a = 1
    · subst ha
      rfl
    · have hmem : 1 ∈ l := by
        rcases List.mem_cons.mp h with h1 | h2
        · exact absurd h1.symm ha
        · exact h2
      unfold map_except
      rw [build_axis_ok a ha, ih hmem]

/-- C10: the `conint(ge=1)` field constraint admits `number_of_points = 1`,
and default grid construction over axes containing a single-point axis
raises the unhandled `ZeroDivisionError` of `1./((n_p-1)*2)` rather than
any named `ParserException`: construction is not total over the accepted
input domain. -/
theorem C10_single_point_axis_zero_division (dims : List ℕ) (h1 : 1 ∈ dims) :
    validate_number_of_points 1 = .ok 1
    ∧ make_default_control_point_grid dims = .error .zeroDivisionError
    ∧ (∀ cls fieldName, PyErr.zeroDivisionError ≠ PyErr.parserException cls fieldName) := by
  refine ⟨rfl, ?_, by intro cls fieldName; simp⟩
  unfold make_default_control_point_grid
  rw [map_except_build_axis_error dims.reverse (List.mem_reverse.mpr h1)]

/-- Witness for C10 on the axis list `[2, 1]`. -/
theorem C10_single_point_axis_zero_division_witness :
    validate_number_of_points 1 = .ok 1
    ∧ make_default_control_point_grid [2, 1] = .error .zeroDivisionError
    ∧ (∀ cls fieldName, PyErr.zeroDivisionError ≠ PyErr.parserException cls fieldName) :=
  C10_single_point_axis_zero_division [2, 1] (by decide)

/-- C1 (counterexample): for two declared axes with 2 and 3 points, the
flattened default grid is ordered with the FIRST declared axis varying
fastest — entry 1 is `(1, 0)` — whereas the claimed last-axis-fastest
ordering (`tuples_last_axis_fastest`) would put `(0, 1/2)` there. -/
theorem C1_counterexample :
    (make_default_control_point_grid [2, 3]).map
        (Option.map (fun g => g.map (fun t => t.map VariableLocation.current_position)))
      = .ok (some [[0, 0], [1, 0], [0, 1/2], [1, 1/2], [0, 1], [1, 1]])
    ∧ (tuples_last_axis_fastest ([2, 3].map axis_variable_locations)).map
        (fun t => t.map VariableLocation.current_position)
      = [[0, 0], [0, 1/2], [0, 1], [1, 0], [1, 1/2], [1, 1]]
    ∧ ([[0, 0], [1, 0], [0, 1/2], [1, 1/2], [0, 1], [1, 1]] : List (List ℚ)) ≠
      [[0, 0], [0, 1/2], [0, 1], [1, 0], [1, 1/2], [1, 1]] := by
  refine ⟨?_, ?_, by norm_num⟩
  · norm_num [make_default_control_point_grid, map_except, build_axis, dim_spacing,
      linspace, List.range_succ, default_vl, extend_grid, axis_variable_locations,
      Except.map, Option.map]
  · norm_num [tuples_last_axis_fastest, linspace, List.range_succ, default_vl,
      axis_variable_locations]
